import Mathlib

/-! Verification development for the favicon generator
(docs/scripts/generate_favicons.py): the analytic shape field, the color
compositor, the supersampling rasterizer, and the from-scratch PNG and ICO
binary encoders.

Modelling conventions. The script's float arithmetic is idealized as real
arithmetic; byte strings are lists of naturals; Python's `struct.pack`
range checks (a field that does not fit its width raises `struct.error`)
are modelled by `Except` values; the zlib DEFLATE compressor is an opaque
function parameter, while `zlib.crc32` is implemented concretely. -/

namespace Favicon

/-! ## Byte-level helpers (struct.pack, zlib.crc32) -/

/-- One bit step of CRC-32 (reflected polynomial 0xEDB88320 = 3988292384),
as computed by `zlib.crc32`: shift right, xoring the polynomial in when the
low bit is set. -/
def crcBit (c : Nat) : Nat :=
  if c % 2 = 1 then Nat.xor (c / 2) 3988292384 else c / 2

/-- One byte step of CRC-32: xor the byte into the register, then eight bit
steps. -/
def crcByte (c b : Nat) : Nat :=
  crcBit (crcBit (crcBit (crcBit (crcBit (crcBit (crcBit (crcBit (Nat.xor c b))))))))

/-- The value of `zlib.crc32(data)`: register initialized to 0xFFFFFFFF,
one byte step per byte, final complement. -/
def crc32 (data : List Nat) : Nat :=
  Nat.xor (data.foldl crcByte 4294967295) 4294967295

/-- Big-endian 4-byte serialization of a 32-bit value, the byte layout
produced by `struct.pack(">I", n)`. -/
def be32 (n : Nat) : List Nat :=
  [n / 16777216 % 256, n / 65536 % 256, n / 256 % 256, n % 256]

/-- Little-endian 2-byte serialization, the byte layout of
`struct.pack("<H", n)`. -/
def le16 (n : Nat) : List Nat :=
  [n % 256, n / 256 % 256]

/-- Little-endian 4-byte serialization, the byte layout of
`struct.pack("<I", n)`. -/
def le32 (n : Nat) : List Nat :=
  [n % 256, n / 256 % 256, n / 65536 % 256, n / 16777216 % 256]

/-! ## PNG encoder (`png_chunk`, `encode_png`) -/

/-- Failure conditions for the PNG encoder. The source can only fail inside
`struct.pack` (`packRange`); `sizeMismatch` is the condition named by the
spec's claimed buffer-length precondition. -/
inductive PngError where
  | sizeMismatch
  | packRange
deriving DecidableEq

/-- `struct.pack(">I", n)`: 4 big-endian bytes, raising when the value does
not fit 32 bits. -/
def pack_be32 (n : Nat) : Except PngError (List Nat) :=
  if n < 4294967296 then Except.ok (be32 n) else Except.error PngError.packRange

/-- `png_chunk(tag, data)` from the source: length (4B BE) + tag + data +
CRC-32 of tag+data (4B BE). The length field goes through the `struct.pack`
range check; the CRC is packed as `zlib.crc32(...) & 0xFFFFFFFF`, modelled
by `% 4294967296`. -/
def png_chunk (tag data : List Nat) : Except PngError (List Nat) :=
  (pack_be32 data.length).bind fun lenb =>
  (pack_be32 (crc32 (tag ++ data) % 4294967296)).bind fun crcb =>
  Except.ok (lenb ++ tag ++ data ++ crcb)

/-- The fixed 8-byte PNG signature b"\x89PNG\r\n\x1a\n". -/
def pngSignature : List Nat := [137, 80, 78, 71, 13, 10, 26, 10]

/-- ASCII bytes of the chunk tag b"IHDR". -/
def ihdrTag : List Nat := [73, 72, 68, 82]

/-- ASCII bytes of the chunk tag b"IDAT". -/
def idatTag : List Nat := [73, 68, 65, 84]

/-- ASCII bytes of the chunk tag b"IEND". -/
def iendTag : List Nat := [73, 69, 78, 68]

/-- The filter-prefixed scanline block of `encode_png`: one row per
`y < height`, each the slice `rgba[y*stride : (y+1)*stride]` prefixed by a
single zero filter byte, all concatenated. -/
def png_raw (width height : Nat) (rgba : List Nat) : List Nat :=
  (List.range height).flatMap fun y =>
    0 :: ((rgba.drop (y * (width * 4))).take (width * 4))

/-- `encode_png(width, height, rgba)` from the source, parameterized by the
zlib compressor: signature, IHDR chunk (width, height as ">I" plus the fixed
bytes 8,6,0,0,0), one IDAT chunk wrapping `compress` of the scanlines, and
an empty IEND chunk. The only failure paths are the `struct.pack` range
checks; the buffer length is never validated. -/
def encode_png (compress : List Nat → List Nat) (width height : Nat)
    (rgba : List Nat) : Except PngError (List Nat) :=
  let raw := png_raw width height rgba
  (pack_be32 width).bind fun wb =>
  (pack_be32 height).bind fun hb =>
  (png_chunk ihdrTag (wb ++ hb ++ [8, 6, 0, 0, 0])).bind fun c1 =>
  (png_chunk idatTag (compress raw)).bind fun c2 =>
  (png_chunk iendTag []).bind fun c3 =>
  Except.ok (pngSignature ++ c1 ++ c2 ++ c3)

/-- Follows the spec's words, not the source: a chunk is length (4B BE) +
tag + data + CRC-32 over tag plus data masked to 32 bits (4B BE), with no
failure path. -/
def png_chunk_spec (tag data : List Nat) : List Nat :=
  be32 data.length ++ tag ++ data ++ be32 (crc32 (tag ++ data) % 4294967296)

/-- Follows the spec's words, not the source: the full PNG stream layout
claimed for `encode_png` — signature, IHDR (width, height, 8, 6, 0, 0, 0),
IDAT wrapping the compressed filter-prefixed rows, empty IEND. -/
def png_stream_spec (compress : List Nat → List Nat) (width height : Nat)
    (rgba : List Nat) : List Nat :=
  pngSignature ++
  png_chunk_spec ihdrTag (be32 width ++ be32 height ++ [8, 6, 0, 0, 0]) ++
  png_chunk_spec idatTag (compress (png_raw width height rgba)) ++
  png_chunk_spec iendTag []

/-- Follows the spec's words, not the source: `encode_png` preceded by the
claimed `SizeMismatch` validation of the buffer length. -/
def encode_png_checked (compress : List Nat → List Nat) (width height : Nat)
    (rgba : List Nat) : Except PngError (List Nat) :=
  if rgba.length ≠ width * height * 4 then Except.error PngError.sizeMismatch
  else encode_png compress width height rgba

/-- Boolean success test for an `Except` value. -/
def exceptOk {ε α : Type} : Except ε α → Bool
  | Except.ok _ => true
  | Except.error _ => false

/-! ## ICO encoder (`write_ico`) -/

/-- Failure conditions for the ICO encoder. The source can only fail inside
`struct.pack` (`packRange`); `tooManyImages` is the condition named by the
spec's claimed image-count guard. -/
inductive IcoError where
  | tooManyImages
  | packRange
deriving DecidableEq

/-- `struct.pack("<H", n)`: 2 little-endian bytes, raising when the value
does not fit 16 bits. -/
def pack_le16 (n : Nat) : Except IcoError (List Nat) :=
  if n < 65536 then Except.ok (le16 n) else Except.error IcoError.packRange

/-- `struct.pack("<I", n)`: 4 little-endian bytes, raising when the value
does not fit 32 bits. -/
def pack_le32 (n : Nat) : Except IcoError (List Nat) :=
  if n < 4294967296 then Except.ok (le32 n) else Except.error IcoError.packRange

/-- One 16-byte ICO directory entry, `struct.pack("<BBBBHHII", w, h, 0, 0,
1, 32, len(png), offset)` from the source. The width/height bytes (0 when
size ≥ 256, hence < 256) and the constant fields 0, 0, 1, 32 always fit
their widths, so their packs are written as literal bytes; the payload
length and offset go through the 32-bit range check. -/
def ico_entry (size : Nat) (png : List Nat) (offset : Nat) :
    Except IcoError (List Nat) :=
  let w := if 256 ≤ size then 0 else size
  (pack_le32 png.length).bind fun lenb =>
  (pack_le32 offset).bind fun offb =>
  Except.ok ([w, w, 0, 0, 1, 0, 32, 0] ++ lenb ++ offb)

/-- The loop body of `write_ico`: walks the image list threading the running
payload offset exactly as the source's `offset += len(png)`, returning the
concatenated directory entries and the concatenated payloads. -/
def ico_body (images : List (Nat × List Nat)) (offset : Nat) :
    Except IcoError (List Nat × List Nat) :=
  match images with
  | [] => Except.ok ([], [])
  | (size, png) :: rest =>
    (ico_entry size png offset).bind fun e =>
    (ico_body rest (offset + png.length)).bind fun rest2 =>
    Except.ok (e ++ rest2.1, png ++ rest2.2)

/-- `write_ico(images)` from the source (minus the file write): 6-byte
header `struct.pack("<HHH", 0, 1, count)` — the two constant fields always
fit, the count goes through the 16-bit range check — then the directory
entries starting at offset 6 + 16*count, then the payloads. -/
def write_ico (images : List (Nat × List Nat)) : Except IcoError (List Nat) :=
  (pack_le16 images.length).bind fun cntb =>
  (ico_body images (6 + 16 * images.length)).bind fun body =>
  Except.ok ([0, 0, 1, 0] ++ cntb ++ body.1 ++ body.2)

/-- Fit predicate for the ICO directory fields: walking the images from the
given starting offset, every payload length and every offset field fits 32
bits. -/
def ico_fits (images : List (Nat × List Nat)) (offset : Nat) : Bool :=
  match images with
  | [] => true
  | (_, png) :: rest =>
    decide (png.length < 4294967296) && decide (offset < 4294967296) &&
      ico_fits rest (offset + png.length)

/-- Follows the spec's words, not the source: one 16-byte directory entry,
byte fields written directly with the entry's offset given explicitly. -/
def ico_entry_spec (size : Nat) (png : List Nat) (offset : Nat) : List Nat :=
  (if 256 ≤ size then 0 else size) :: (if 256 ≤ size then 0 else size) ::
    ([0, 0, 1, 0, 32, 0] ++ le32 png.length ++ le32 offset)

/-- Follows the spec's words, not the source: the directory entries with the
first offset 6 + 16*count and each later offset the prior offset plus the
prior payload length. -/
def ico_dir_spec (images : List (Nat × List Nat)) (offset : Nat) : List Nat :=
  match images with
  | [] => []
  | (size, png) :: rest =>
    ico_entry_spec size png offset ++ ico_dir_spec rest (offset + png.length)

/-- Follows the spec's words, not the source: the full ICO layout claimed
for `write_ico` — header (0, 1, count as "<H" fields), directory, then all
payloads concatenated in directory order. -/
def ico_spec (images : List (Nat × List Nat)) : List Nat :=
  [0, 0, 1, 0] ++ le16 images.length ++
    ico_dir_spec images (6 + 16 * images.length) ++
    (images.map fun p => p.2).flatten

/-- Follows the spec's words, not the source: `write_ico` guarded by the
claimed `TooManyImages` condition, succeeding on every other input. -/
def write_ico_checked (images : List (Nat × List Nat)) :
    Except IcoError (List Nat) :=
  if 65535 < images.length then Except.error IcoError.tooManyImages
  else Except.ok (ico_spec images)

/-! ## Geometry primitives (float arithmetic idealized as real arithmetic) -/

noncomputable section

/-- `clamp(v, lo, hi)` from the source. -/
def clamp (v lo hi : ℝ) : ℝ :=
  if v < lo then lo else if v > hi then hi else v

/-- Python `int(x)`: truncation toward zero, as an integer. -/
def py_trunc (x : ℝ) : ℤ :=
  if x < 0 then -Int.floor (-x) else Int.floor x

/-- Python `int(x)` used in float arithmetic: truncation toward zero. -/
def py_int (x : ℝ) : ℝ :=
  ((py_trunc x : ℤ) : ℝ)

/-- `dist_to_segment(px, py, ax, ay, bx, by)` from the source: Euclidean
distance from the point (px, py) to the segment from (ax, ay) to the point
(bx, byy), via the clamped projection parameter. -/
def dist_to_segment (px py ax ay bx byy : ℝ) : ℝ :=
  let abx := bx - ax
  let aby := byy - ay
  let apx := px - ax
  let apy := py - ay
  let ab2 := abx * abx + aby * aby
  if ab2 = 0 then
    Real.sqrt ((px - ax) * (px - ax) + (py - ay) * (py - ay))
  else
    let t := clamp ((apx * abx + apy * aby) / ab2) 0 1
    let cx := ax + t * abx
    let cy := ay + t * aby
    Real.sqrt ((px - cx) * (px - cx) + (py - cy) * (py - cy))

/-- `mix(c1, c2, t)` from the source: componentwise linear interpolation of
RGB triples. -/
structure RGB where
  r : ℝ
  g : ℝ
  b : ℝ

/-- A straight-alpha RGBA color sample. -/
structure RGBA where
  r : ℝ
  g : ℝ
  b : ℝ
  a : ℝ

/-- `mix(c1, c2, t)` from the source. -/
def mix (c1 c2 : RGB) (t : ℝ) : RGB :=
  ⟨c1.r + (c2.r - c1.r) * t, c1.g + (c2.g - c1.g) * t, c1.b + (c2.b - c1.b) * t⟩

/-- `blend(base, top_rgb, top_a)` from the source: standard "over" alpha
compositing with straight alpha, returning transparent black when the
output alpha vanishes. -/
def blend (base : RGBA) (top : RGB) (top_a : ℝ) : RGBA :=
  let out_a := top_a + base.a * (1 - top_a)
  if out_a ≤ 0 then ⟨0, 0, 0, 0⟩
  else
    ⟨(top.r * top_a + base.r * base.a * (1 - top_a)) / out_a,
     (top.g * top_a + base.g * base.a * (1 - top_a)) / out_a,
     (top.b * top_a + base.b * base.a * (1 - top_a)) / out_a,
     out_a⟩

/-- `shape_v(x, y, width)` from the source: within half the stroke width of
either of the two V segments ((34,30)-(50,72) and (50,72)-(66,30)). -/
def shape_v (x y width : ℝ) : Prop :=
  min (dist_to_segment x y 34 30 50 72) (dist_to_segment x y 50 72 66 30) ≤
    width * 0.5

/-- `shape_v_outline(x, y)` from the source: the stroke annulus, inside the
wide stroke but outside the narrow one. -/
def shape_v_outline (x y : ℝ) : Prop :=
  shape_v x y 14.5 ∧ ¬ shape_v x y 10.5

/-- `solve_quad_t_for_y(y, y0, y1, y2)` from the source: solve
a t^2 + b t + c = 0 with a = y0 - 2 y1 + y2, b = -2 y0 + 2 y1, c = y0 - y;
linear fallback when |a| is negligible (0 when |b| is too), negative
discriminants clamped to zero, the "+" root preferred when in [0,1], then
the "-" root, else the "+" root clamped into [0,1]. -/
def solve_quad_t_for_y (y y0 y1 y2 : ℝ) : ℝ :=
  let a := y0 - 2 * y1 + y2
  let b := -2 * y0 + 2 * y1
  let c := y0 - y
  if |a| < 1e-9 then
    if |b| < 1e-9 then 0 else clamp (-c / b) 0 1
  else
    let disc0 := b * b - 4 * a * c
    let disc := if disc0 < 0 then 0 else disc0
    let sd := Real.sqrt disc
    let t1 := (-b + sd) / (2 * a)
    let t2 := (-b - sd) / (2 * a)
    if 0 ≤ t1 ∧ t1 ≤ 1 then t1
    else if 0 ≤ t2 ∧ t2 ≤ 1 then t2
    else clamp t1 0 1

/-- `quad_x_at_y(y, p0, p1, p2)` from the source: the Bezier x-coordinate at
the parameter solving the y-component for the given y. -/
def quad_x_at_y (y : ℝ) (p0 p1 p2 : ℝ × ℝ) : ℝ :=
  let t := solve_quad_t_for_y y p0.2 p1.2 p2.2
  let mt := 1 - t
  mt * mt * p0.1 + 2 * mt * t * p1.1 + t * t * p2.1

/-! ## Shape field -/

/-- The keyword-argument table of `shield_shape`. -/
structure ShieldParams where
  top_y : ℝ
  side_top_y : ℝ
  side_bottom_y : ℝ
  mid_y : ℝ
  bottom_y : ℝ
  left_side_x : ℝ
  right_side_x : ℝ
  top_left_x : ℝ
  top_right_x : ℝ
  mid_left_x : ℝ
  mid_right_x : ℝ
  bottom_left_x : ℝ
  bottom_right_x : ℝ
  low_ctrl_left : ℝ × ℝ
  low_ctrl_right : ℝ × ℝ
  deep_ctrl_left : ℝ × ℝ
  deep_ctrl_right : ℝ × ℝ

/-- The left boundary `xl` computed by `shield_shape` at height y: top
quadratic below the side-top threshold, the straight side down to the
side-bottom threshold, then the low and deep quadratics. -/
def shieldXl (p : ShieldParams) (y : ℝ) : ℝ :=
  if y < p.side_top_y then
    quad_x_at_y y (p.left_side_x, p.side_top_y) (p.left_side_x, p.top_y)
      (p.top_left_x, p.top_y)
  else if y ≤ p.side_bottom_y then p.left_side_x
  else if y ≤ p.mid_y then
    quad_x_at_y y (p.left_side_x, p.side_bottom_y) p.low_ctrl_left
      (p.mid_left_x, p.mid_y)
  else
    quad_x_at_y y (p.mid_left_x, p.mid_y) p.deep_ctrl_left
      (p.bottom_left_x, p.bottom_y)

/-- The right boundary `xr` computed by `shield_shape` at height y. -/
def shieldXr (p : ShieldParams) (y : ℝ) : ℝ :=
  if y < p.side_top_y then
    quad_x_at_y y (p.right_side_x, p.side_top_y) (p.right_side_x, p.top_y)
      (p.top_right_x, p.top_y)
  else if y ≤ p.side_bottom_y then p.right_side_x
  else if y ≤ p.mid_y then
    quad_x_at_y y (p.right_side_x, p.side_bottom_y) p.low_ctrl_right
      (p.mid_right_x, p.mid_y)
  else
    quad_x_at_y y (p.mid_right_x, p.mid_y) p.deep_ctrl_right
      (p.bottom_right_x, p.bottom_y)

/-- `shield_shape(x, y, **params)` from the source: False outside the
[top_y, bottom_y] band, otherwise xl ≤ x ≤ xr at that height. -/
def shield_shape (x y : ℝ) (p : ShieldParams) : Prop :=
  if y < p.top_y ∨ y > p.bottom_y then False
  else shieldXl p y ≤ x ∧ x ≤ shieldXr p y

/-- The keyword arguments of `shield_outer`. -/
def outerParams : ShieldParams :=
  { top_y := 8, side_top_y := 22, side_bottom_y := 60, mid_y := 76,
    bottom_y := 90, left_side_x := 14, right_side_x := 86,
    top_left_x := 28, top_right_x := 72, mid_left_x := 24, mid_right_x := 76,
    bottom_left_x := 44, bottom_right_x := 56,
    low_ctrl_left := (14, 69), low_ctrl_right := (86, 69),
    deep_ctrl_left := (33, 84), deep_ctrl_right := (67, 84) }

/-- The keyword arguments of `shield_inner`. -/
def innerParams : ShieldParams :=
  { top_y := 14, side_top_y := 26, side_bottom_y := 56, mid_y := 70,
    bottom_y := 84, left_side_x := 20, right_side_x := 80,
    top_left_x := 31, top_right_x := 69, mid_left_x := 29, mid_right_x := 71,
    bottom_left_x := 43.5, bottom_right_x := 56.5,
    low_ctrl_left := (20, 63), low_ctrl_right := (80, 63),
    deep_ctrl_left := (36, 77), deep_ctrl_right := (64, 77) }

/-- The keyword arguments of `shield_core`. -/
def coreParams : ShieldParams :=
  { top_y := 19, side_top_y := 29, side_bottom_y := 52, mid_y := 64,
    bottom_y := 78, left_side_x := 25, right_side_x := 75,
    top_left_x := 33, top_right_x := 67, mid_left_x := 33, mid_right_x := 67,
    bottom_left_x := 43.2, bottom_right_x := 56.8,
    low_ctrl_left := (25, 58), low_ctrl_right := (75, 58),
    deep_ctrl_left := (38.5, 70), deep_ctrl_right := (61.5, 70) }

/-- `shield_outer(x, y)` from the source. -/
def shield_outer (x y : ℝ) : Prop := shield_shape x y outerParams

/-- `shield_inner(x, y)` from the source. -/
def shield_inner (x y : ℝ) : Prop := shield_shape x y innerParams

/-- `shield_core(x, y)` from the source. -/
def shield_core (x y : ℝ) : Prop := shield_shape x y coreParams

/-! ## Color compositor -/

/-- The plain background color of `sample_icon` (source lines 225-230):
diagonal gradient between (13,24,41) and (76,29,149), truncated to ints,
then brightened toward (0,212,255) by the elliptical glow term. -/
def background (x y : ℝ) : RGB :=
  let t := clamp ((x * 0.62 + y * 0.38) / 100) 0 1
  let bg := mix ⟨13, 24, 41⟩ ⟨76, 29, 149⟩ t
  let glow :=
    clamp (1 - (((x - 30) / 100) ^ 2 + ((y - 20) / 100) ^ 2) * 2.3) 0 1 * 0.18
  mix ⟨py_int bg.r, py_int bg.g, py_int bg.b⟩ ⟨0, 212, 255⟩ glow

open Classical in
/-- `sample_icon(x, y)` from the source: transparent outside the outer
shield; otherwise the background at alpha 1, then the outer band (alpha
0.95) or middle band (alpha 0.9), the offset V shadow (alpha 0.42), the V
outline (alpha 0.96), and the V fill gradient (alpha 1), blended in paint
order. -/
def sample_icon (x y : ℝ) : RGBA :=
  if ¬ shield_outer x y then ⟨0, 0, 0, 0⟩
  else
    let bg := background x y
    let color0 : RGBA := ⟨bg.r, bg.g, bg.b, 1⟩
    let color1 :=
      if ¬ shield_inner x y then blend color0 ⟨0, 212, 255⟩ 0.95
      else if ¬ shield_core x y then blend color0 ⟨0, 153, 204⟩ 0.9
      else color0
    let color2 :=
      if shape_v (x - 1.5) (y - 1.6) 10.5 then blend color1 ⟨8, 10, 18⟩ 0.42
      else color1
    let color3 :=
      if shape_v_outline x y then blend color2 ⟨5, 9, 20⟩ 0.96 else color2
    if shape_v x y 10.5 then
      blend color3 (mix ⟨126, 249, 255⟩ ⟨0, 180, 255⟩ (clamp ((y - 24) / 50) 0 1)) 1
    else color3

/-! ## Rasterizer -/

/-- The per-pixel accumulator of `render_icon`: the channelwise sums of
`sample_icon` over the supersample grid, iterated sy-outer sx-inner as in
the source. -/
def subsample_sum (size ss i j : ℕ) : RGBA :=
  (List.range ss).foldl (fun (acc : RGBA) (sy : ℕ) =>
    (List.range ss).foldl (fun (acc2 : RGBA) (sx : ℕ) =>
      let x := ((i : ℝ) + ((sx : ℝ) + 0.5) / (ss : ℝ)) * 100 / (size : ℝ)
      let y := ((j : ℝ) + ((sy : ℝ) + 0.5) / (ss : ℝ)) * 100 / (size : ℝ)
      let s := sample_icon x y
      ⟨acc2.r + s.r, acc2.g + s.g, acc2.b + s.b, acc2.a + s.a⟩) acc)
    ⟨0, 0, 0, 0⟩

/-- The four bytes `render_icon` stores for pixel (i, j): channel sums times
1/S^2, clamped to [0,255] (alpha scaled by 255 first), plus 0.5, truncated
by Python `int`. -/
def pixel_bytes (size ss i j : ℕ) : List ℕ :=
  let inv : ℝ := 1 / ((ss : ℝ) * (ss : ℝ))
  let s := subsample_sum size ss i j
  [(py_trunc (clamp (s.r * inv) 0 255 + 0.5)).toNat,
   (py_trunc (clamp (s.g * inv) 0 255 + 0.5)).toNat,
   (py_trunc (clamp (s.b * inv) 0 255 + 0.5)).toNat,
   (py_trunc (clamp (s.a * inv * 255) 0 255 + 0.5)).toNat]

/-- `render_icon(size, supersample)` from the source: the flat RGBA8 buffer,
row-major with j the row index, 4 bytes per pixel. -/
def render_icon (size ss : ℕ) : List ℕ :=
  (List.range size).flatMap fun j =>
    (List.range size).flatMap fun i => pixel_bytes size ss i j

/-- Follows the spec's words, not the source: the design-space coordinate of
sub-sample index sx inside pixel index i, (i + (sx+0.5)/S) * 100/size. -/
def design_coord (size ss i sx : ℕ) : ℝ :=
  ((i : ℝ) + ((sx : ℝ) + 0.5) / (ss : ℝ)) * (100 / (size : ℝ))

/-- Follows the spec's words, not the source: pixel (i, j) is the average of
the compositor over the S x S sub-samples — each channel summed and divided
by S^2, alpha scaled by 255, each channel clamped to [0,255] and rounded to
the nearest integer. -/
def pixel_spec (size ss i j : ℕ) : List ℕ :=
  [(round (clamp ((∑ sy in Finset.range ss, ∑ sx in Finset.range ss,
      (sample_icon (design_coord size ss i sx) (design_coord size ss j sy)).r)
        / ((ss : ℝ)) ^ 2) 0 255)).toNat,
   (round (clamp ((∑ sy in Finset.range ss, ∑ sx in Finset.range ss,
      (sample_icon (design_coord size ss i sx) (design_coord size ss j sy)).g)
        / ((ss : ℝ)) ^ 2) 0 255)).toNat,
   (round (clamp ((∑ sy in Finset.range ss, ∑ sx in Finset.range ss,
      (sample_icon (design_coord size ss i sx) (design_coord size ss j sy)).b)
        / ((ss : ℝ)) ^ 2) 0 255)).toNat,
   (round (clamp ((∑ sy in Finset.range ss, ∑ sx in Finset.range ss,
      (sample_icon (design_coord size ss i sx) (design_coord size ss j sy)).a)
        / ((ss : ℝ)) ^ 2 * 255) 0 255)).toNat]

/-- Follows the spec's words, not the source: the whole buffer assembled
from the per-pixel averages. -/
def render_spec (size ss : ℕ) : List ℕ :=
  (List.range size).flatMap fun j =>
    (List.range size).flatMap fun i => pixel_spec size ss i j

end

/-! ## Encoder lemmas -/

/-- A chunk whose data length fits 32 bits serializes to the spec layout. -/
lemma png_chunk_ok (tag data : List Nat) (h : data.length < 4294967296) :
    png_chunk tag data = Except.ok (png_chunk_spec tag data) := by
  rw [png_chunk, pack_be32, if_pos h, pack_be32,
    if_pos (Nat.mod_lt _ (by norm_num))]
  rfl

/-- Whenever width, height and the compressed payload length fit 32 bits,
`encode_png` succeeds and produces exactly the spec's stream layout. -/
lemma encode_png_ok (compress : List Nat → List Nat) (width height : Nat)
    (rgba : List Nat) (hw : width < 4294967296) (hh : height < 4294967296)
    (hc : (compress (png_raw width height rgba)).length < 4294967296) :
    encode_png compress width height rgba =
      Except.ok (png_stream_spec compress width height rgba) := by
  simp only [encode_png]
  rw [pack_be32, if_pos hw, pack_be32, if_pos hh]
  simp only [Except.bind]
  rw [png_chunk_ok ihdrTag _ (by simp [be32]),
    png_chunk_ok idatTag _ hc, png_chunk_ok iendTag _ (by simp)]
  rfl

/-- The loop of `write_ico` succeeds exactly on fitting directories, then
yields the spec's directory bytes and concatenated payloads. -/
lemma ico_body_ok : ∀ (images : List (Nat × List Nat)) (offset : Nat),
    ico_fits images offset = true →
    ico_body images offset =
      Except.ok (ico_dir_spec images offset, (images.map fun p => p.2).flatten) := by
  intro images
  induction images with
  | nil =>
    intro offset _
    simp [ico_body, ico_dir_spec]
  | cons hd tl ih =>
    intro offset hfit
    obtain ⟨size, png⟩ := hd
    simp only [ico_fits, Bool.and_eq_true, decide_eq_true_eq] at hfit
    obtain ⟨⟨hlen, hoff⟩, hrest⟩ := hfit
    simp [ico_body, ico_entry, pack_le32, hlen, hoff, ih _ hrest,
      ico_dir_spec, ico_entry_spec, Except.bind]

/-- Each spec directory entry is 16 bytes long. -/
lemma ico_dir_spec_length : ∀ (images : List (Nat × List Nat)) (offset : Nat),
    (ico_dir_spec images offset).length = 16 * images.length := by
  intro images
  induction images with
  | nil => intro offset; simp [ico_dir_spec]
  | cons hd tl ih =>
    intro offset
    obtain ⟨size, png⟩ := hd
    simp [ico_dir_spec, ico_entry_spec, le32, ih]
    ring

/-- Total spec ICO length: header + directory + payload bytes. -/
lemma ico_spec_length (images : List (Nat × List Nat)) :
    (ico_spec images).length =
      6 + 16 * images.length + (images.map fun p => p.2.length).sum := by
  simp [ico_spec, le16, ico_dir_spec_length, Function.comp_def]
  ring

/-- A single image whose payload length overflows the 32-bit directory
field makes `write_ico` fail in `struct.pack`. -/
lemma ico_big_payload (size : Nat) (png : List Nat)
    (h : png.length = 4294967296) :
    write_ico [(size, png)] = Except.error IcoError.packRange := by
  rw [write_ico, pack_le16, if_pos (by simp)]
  simp only [Except.bind, ico_body, ico_entry, pack_le32, h]
  rw [if_neg (by norm_num)]

/-- `write_ico` succeeds on every fitting image list, with the spec layout. -/
lemma write_ico_ok (images : List (Nat × List Nat))
    (hn : images.length ≤ 65535)
    (hfit : ico_fits images (6 + 16 * images.length) = true) :
    write_ico images = Except.ok (ico_spec images) := by
  have hn' : images.length < 65536 := Nat.lt_succ_of_le hn
  simp [write_ico, pack_le16, hn', ico_body_ok _ _ hfit, ico_spec, le16,
    Except.bind]

/-! ## Claim C1 — `encode_png` has no `SizeMismatch` validation -/

/-- Claim C1, counterexample: the claim says `encode_png` fails with a
`SizeMismatch` condition whenever the buffer length differs from
width*height*4. At width = height = 1 with the empty buffer (length 0 ≠ 4)
the source encoder nevertheless succeeds, so it differs from the
spec-described checked encoder. -/
theorem encode_png_sizecheck_cex :
    encode_png id 1 1 [] ≠ encode_png_checked id 1 1 [] := by
  have h1 : encode_png id 1 1 [] = Except.ok (png_stream_spec id 1 1 []) :=
    encode_png_ok id 1 1 [] (by norm_num) (by norm_num) (by decide)
  rw [h1, encode_png_checked]
  simp

/-- Claim C1 (amended): `encode_png` never validates the buffer length; it
succeeds for every RGBA buffer, of matching length or not, whenever width,
height and the compressed payload length fit their 32-bit pack fields (the
`struct.pack` range checks being its only failure source). -/
theorem encode_png_no_size_check (compress : List Nat → List Nat)
    (width height : Nat) (rgba : List Nat)
    (hw : width < 4294967296) (hh : height < 4294967296)
    (hc : (compress (png_raw width height rgba)).length < 4294967296) :
    exceptOk (encode_png compress width height rgba) = true := by
  rw [encode_png_ok compress width height rgba hw hh hc]
  rfl

/-- Claim C1, witness: at width = height = 1 the empty buffer has the wrong
length (0 ≠ 4), yet the encoder succeeds. -/
theorem encode_png_no_size_check_witness :
    ([] : List Nat).length ≠ 1 * 1 * 4 ∧
      exceptOk (encode_png id 1 1 []) = true :=
  ⟨by decide, encode_png_no_size_check id 1 1 [] (by decide) (by decide) (by decide)⟩

/-! ## Claim C4 — PNG stream layout -/

/-- Claim C4, counterexample: the claim states the layout for every width,
height and buffer, but at width = 2^32 (height 0, empty buffer — a buffer
of the matching length width*0*4 = 0) the width does not fit its 32-bit
IHDR field and the source encoder fails instead of emitting the stream. -/
theorem png_stream_cex :
    encode_png id 4294967296 0 [] ≠
      Except.ok (png_stream_spec id 4294967296 0 []) := by
  have h : encode_png id 4294967296 0 [] = Except.error PngError.packRange := by
    simp [encode_png, pack_be32, Except.bind]
  rw [h]
  simp

/-- Claim C4 (amended): for every width, height and RGBA buffer whose width,
height and compressed payload length fit 32 bits, the PNG encoder's output
is exactly: the 8-byte signature, an IHDR chunk (width and height as 32-bit
big-endian, then the bytes 8, 6, 0, 0, 0), one IDAT chunk wrapping the
compression of the zero-filter-prefixed rows, and an empty IEND chunk, each
chunk serialized as 4-byte big-endian length, 4-byte tag, data, and 4-byte
big-endian CRC-32 over tag plus data. -/
theorem png_stream_layout (compress : List Nat → List Nat)
    (width height : Nat) (rgba : List Nat)
    (hw : width < 4294967296) (hh : height < 4294967296)
    (hc : (compress (png_raw width height rgba)).length < 4294967296) :
    encode_png compress width height rgba =
      Except.ok (png_stream_spec compress width height rgba) :=
  encode_png_ok compress width height rgba hw hh hc

/-- Claim C4, witness: the layout theorem applied to a concrete 1x1 image
with the identity compressor. -/
theorem png_stream_layout_witness :
    encode_png id 1 1 [10, 20, 30, 40] =
      Except.ok (png_stream_spec id 1 1 [10, 20, 30, 40]) :=
  png_stream_layout id 1 1 [10, 20, 30, 40] (by decide) (by decide) (by decide)

/-! ## Claim C5 — ICO layout -/

/-- Claim C5, counterexample: the claim states the layout for every image
list, but a list of 65536 images overflows the 16-bit count field and the
source encoder fails instead of emitting the layout. -/
theorem ico_stream_cex :
    write_ico (List.replicate 65536 ((16 : Nat), ([] : List Nat))) ≠
      Except.ok (ico_spec (List.replicate 65536 ((16 : Nat), ([] : List Nat)))) := by
  intro hcontra
  rw [write_ico, pack_le16, List.length_replicate, if_neg (by norm_num)] at hcontra
  simp only [Except.bind] at hcontra
  exact Except.noConfusion hcontra

/-- Claim C5 (amended): for every image list whose count fits 16 bits and
whose payload lengths and running offsets fit 32 bits, the ICO encoder's
output is: a 6-byte little-endian header (0, 1, count), one 16-byte
directory entry per image — width/height bytes (0 when size ≥ 256), two
zero bytes, planes = 1 and bit depth = 32 as 16-bit little-endian, payload
length as 32-bit little-endian, offset 6 + 16*count for the first entry and
prior offset plus prior payload length thereafter — then all payloads in
directory order; and the total length is header + directory + payloads. -/
theorem ico_stream_layout (images : List (Nat × List Nat))
    (hn : images.length ≤ 65535)
    (hfit : ico_fits images (6 + 16 * images.length) = true) :
    write_ico images = Except.ok (ico_spec images) ∧
      (ico_spec images).length =
        6 + 16 * images.length + (images.map fun p => p.2.length).sum :=
  ⟨write_ico_ok images hn hfit, ico_spec_length images⟩

/-- Claim C5, witness: the layout theorem applied to three images of
declared sizes 16, 32, 48 carrying small payloads. -/
theorem ico_stream_layout_witness :
    write_ico [(16, [1]), (32, [2, 2]), (48, [3])] =
        Except.ok (ico_spec [(16, [1]), (32, [2, 2]), (48, [3])]) ∧
      (ico_spec [(16, [1]), (32, [2, 2]), (48, [3])]).length =
        6 + 16 * [(16, [1]), (32, [2, 2]), (48, [3])].length +
          ([(16, [1]), (32, [2, 2]), (48, [3])].map fun p => p.2.length).sum :=
  ico_stream_layout [(16, [1]), (32, [2, 2]), (48, [3])] (by decide) (by decide)

/-! ## Claim C8 — ICO image-count guard -/

/-- Claim C8, counterexample: the claim says `write_ico` fails only when the
image count exceeds 65535 and succeeds on every smaller list. A single
image whose payload has 2^32 bytes stays within the count limit yet makes
the encoder fail on the 32-bit payload-length field, so the source differs
from the spec-described checked encoder. -/
theorem ico_count_guard_cex :
    write_ico [((16 : Nat), List.replicate 4294967296 (0 : Nat))] ≠
      write_ico_checked [((16 : Nat), List.replicate 4294967296 (0 : Nat))] := by
  intro hcontra
  rw [ico_big_payload 16 _ (by rw [List.length_replicate])] at hcontra
  rw [write_ico_checked, if_neg (by norm_num)] at hcontra
  exact Except.noConfusion hcontra

/-- Claim C8 (amended): `write_ico` fails (through the `struct.pack` range
checks) whenever the image count exceeds 65535, and succeeds for every list
of at most 65535 images whose payload lengths and directory offsets all fit
32 bits. -/
theorem ico_count_guard (images : List (Nat × List Nat)) :
    (65535 < images.length → write_ico images = Except.error IcoError.packRange) ∧
      (images.length ≤ 65535 → ico_fits images (6 + 16 * images.length) = true →
        exceptOk (write_ico images) = true) := by
  constructor
  · intro hn
    have hn' : ¬ images.length < 65536 := by omega
    simp [write_ico, pack_le16, hn', Except.bind]
  · intro hn hfit
    rw [write_ico_ok images hn hfit]
    rfl

/-- Claim C8, witness: a one-image list (declared size 256, exercising the
0-means-256 width byte) fits, and the encoder succeeds on it. -/
theorem ico_count_guard_witness :
    exceptOk (write_ico [((256 : Nat), [9])]) = true :=
  (ico_count_guard [((256 : Nat), [9])]).2 (by decide) (by decide)

/-! ## Clamp and solver lemmas -/

/-- `clamp` is the identity on values already inside the interval. -/
lemma clamp_eq_of_mem (v lo hi : ℝ) (h1 : lo ≤ v) (h2 : v ≤ hi) :
    clamp v lo hi = v := by
  rw [clamp, if_neg (not_lt.mpr h1), if_neg (not_lt.mpr h2)]

/-- `clamp` stays above the lower bound. -/
lemma le_clamp (v lo hi : ℝ) (h : lo ≤ hi) : lo ≤ clamp v lo hi := by
  rw [clamp]
  split_ifs with h1 h2
  · exact le_refl lo
  · exact h
  · exact not_lt.mp h1

/-- `clamp` stays below the upper bound. -/
lemma clamp_le (v lo hi : ℝ) (h : lo ≤ hi) : clamp v lo hi ≤ hi := by
  rw [clamp]
  split_ifs with h1 h2
  · exact h
  · exact le_refl hi
  · exact not_lt.mp h2

/-- Solver reduction in the genuine-quadratic, nonnegative-discriminant
case: the source's root-selection conditional, written out. -/
lemma solve_quad_eval (y y0 y1 y2 a b c : ℝ)
    (hA : a = y0 - 2 * y1 + y2) (hB : b = -2 * y0 + 2 * y1)
    (hC : c = y0 - y) (ha : ¬ |a| < 1e-9) (hd : 0 ≤ b * b - 4 * a * c) :
    solve_quad_t_for_y y y0 y1 y2 =
      (if 0 ≤ (-b + Real.sqrt (b * b - 4 * a * c)) / (2 * a) ∧
            (-b + Real.sqrt (b * b - 4 * a * c)) / (2 * a) ≤ 1 then
        (-b + Real.sqrt (b * b - 4 * a * c)) / (2 * a)
      else if 0 ≤ (-b - Real.sqrt (b * b - 4 * a * c)) / (2 * a) ∧
            (-b - Real.sqrt (b * b - 4 * a * c)) / (2 * a) ≤ 1 then
        (-b - Real.sqrt (b * b - 4 * a * c)) / (2 * a)
      else clamp ((-b + Real.sqrt (b * b - 4 * a * c)) / (2 * a)) 0 1) := by
  subst hA
  subst hB
  subst hC
  simp only [solve_quad_t_for_y]
  rw [if_neg ha, if_neg (not_lt.mpr hd)]

/-- Solver reduction when the "+" root is selected. -/
lemma solve_quad_root1 (y y0 y1 y2 a b c t : ℝ)
    (hA : a = y0 - 2 * y1 + y2) (hB : b = -2 * y0 + 2 * y1)
    (hC : c = y0 - y) (ha : ¬ |a| < 1e-9) (hd : 0 ≤ b * b - 4 * a * c)
    (hT : t = (-b + Real.sqrt (b * b - 4 * a * c)) / (2 * a))
    (h0 : 0 ≤ t) (h1 : t ≤ 1) :
    solve_quad_t_for_y y y0 y1 y2 = t := by
  rw [solve_quad_eval y y0 y1 y2 a b c hA hB hC ha hd, ← hT,
    if_pos ⟨h0, h1⟩]

/-- Solver reduction when the "+" root is out of range and the "-" root is
selected. -/
lemma solve_quad_root2 (y y0 y1 y2 a b c t : ℝ)
    (hA : a = y0 - 2 * y1 + y2) (hB : b = -2 * y0 + 2 * y1)
    (hC : c = y0 - y) (ha : ¬ |a| < 1e-9) (hd : 0 ≤ b * b - 4 * a * c)
    (hn : ¬ (0 ≤ (-b + Real.sqrt (b * b - 4 * a * c)) / (2 * a) ∧
          (-b + Real.sqrt (b * b - 4 * a * c)) / (2 * a) ≤ 1))
    (hT : t = (-b - Real.sqrt (b * b - 4 * a * c)) / (2 * a))
    (h0 : 0 ≤ t) (h1 : t ≤ 1) :
    solve_quad_t_for_y y y0 y1 y2 = t := by
  rw [solve_quad_eval y y0 y1 y2 a b c hA hB hC ha hd, if_neg hn, ← hT,
    if_pos ⟨h0, h1⟩]

/-- Solver reduction in the linear-fallback case. -/
lemma solve_quad_linear (y y0 y1 y2 a b c : ℝ)
    (hA : a = y0 - 2 * y1 + y2) (hB : b = -2 * y0 + 2 * y1)
    (hC : c = y0 - y) (ha : |a| < 1e-9) (hb : ¬ |b| < 1e-9) :
    solve_quad_t_for_y y y0 y1 y2 = clamp (-c / b) 0 1 := by
  subst hA
  subst hB
  subst hC
  simp only [solve_quad_t_for_y]
  rw [if_pos ha, if_neg hb]

/-! ## Claim C6 — quadratic solver policy -/

/-- Claim C6: `solve_quad_t_for_y` follows the stated policy for every
input. With a = y0 - 2y1 + y2, b = -2y0 + 2y1, c = y0 - y: when |a| is
negligible it returns the linear solution clamped into [0,1] (0 in the
fully degenerate case); when the discriminant is negative it clamps it to
zero, so both roots collapse to -b/(2a) and that value is returned clamped
into [0,1]; otherwise it returns the "+" root when that lies in [0,1],
else the "-" root when that lies in [0,1], else the "+" root clamped into
[0,1]. -/
theorem solve_quad_t_policy (y y0 y1 y2 a b c : ℝ)
    (hA : a = y0 - 2 * y1 + y2) (hB : b = -2 * y0 + 2 * y1)
    (hC : c = y0 - y) :
    (|a| < 1e-9 → |b| < 1e-9 → solve_quad_t_for_y y y0 y1 y2 = 0) ∧
    (|a| < 1e-9 → ¬ |b| < 1e-9 →
      solve_quad_t_for_y y y0 y1 y2 = clamp (-c / b) 0 1) ∧
    (¬ |a| < 1e-9 → b * b - 4 * a * c < 0 →
      solve_quad_t_for_y y y0 y1 y2 = clamp (-b / (2 * a)) 0 1) ∧
    (¬ |a| < 1e-9 → 0 ≤ b * b - 4 * a * c →
      ((0 ≤ (-b + Real.sqrt (b * b - 4 * a * c)) / (2 * a) ∧
          (-b + Real.sqrt (b * b - 4 * a * c)) / (2 * a) ≤ 1 →
        solve_quad_t_for_y y y0 y1 y2 =
          (-b + Real.sqrt (b * b - 4 * a * c)) / (2 * a)) ∧
       (¬ (0 ≤ (-b + Real.sqrt (b * b - 4 * a * c)) / (2 * a) ∧
          (-b + Real.sqrt (b * b - 4 * a * c)) / (2 * a) ≤ 1) →
        0 ≤ (-b - Real.sqrt (b * b - 4 * a * c)) / (2 * a) ∧
          (-b - Real.sqrt (b * b - 4 * a * c)) / (2 * a) ≤ 1 →
        solve_quad_t_for_y y y0 y1 y2 =
          (-b - Real.sqrt (b * b - 4 * a * c)) / (2 * a)) ∧
       (¬ (0 ≤ (-b + Real.sqrt (b * b - 4 * a * c)) / (2 * a) ∧
          (-b + Real.sqrt (b * b - 4 * a * c)) / (2 * a) ≤ 1) →
        ¬ (0 ≤ (-b - Real.sqrt (b * b - 4 * a * c)) / (2 * a) ∧
          (-b - Real.sqrt (b * b - 4 * a * c)) / (2 * a) ≤ 1) →
        solve_quad_t_for_y y y0 y1 y2 =
          clamp ((-b + Real.sqrt (b * b - 4 * a * c)) / (2 * a)) 0 1))) := by
  refine ⟨?_, ?_, ?_, ?_⟩
  · intro ha hb
    subst hA
    subst hB
    simp only [solve_quad_t_for_y]
    rw [if_pos ha, if_pos hb]
  · intro ha hb
    exact solve_quad_linear y y0 y1 y2 a b c hA hB hC ha hb
  · intro ha hdlt
    have hd0 : b * b - 4 * a * c < 0 := hdlt
    subst hA
    subst hB
    subst hC
    simp only [solve_quad_t_for_y]
    rw [if_neg ha, if_pos hd0, Real.sqrt_zero, add_zero, sub_zero]
    set m := -(-2 * y0 + 2 * y1) / (2 * (y0 - 2 * y1 + y2)) with hm
    by_cases hmem : 0 ≤ m ∧ m ≤ 1
    · rw [if_pos hmem, clamp_eq_of_mem m 0 1 hmem.1 hmem.2]
    · rw [if_neg hmem, if_neg hmem]
  · intro ha hd
    refine ⟨fun hm =>
        solve_quad_root1 y y0 y1 y2 a b c _ hA hB hC ha hd rfl hm.1 hm.2,
      fun hn hm =>
        solve_quad_root2 y y0 y1 y2 a b c _ hA hB hC ha hd hn rfl hm.1 hm.2,
      fun hn1 hn2 => ?_⟩
    rw [solve_quad_eval y y0 y1 y2 a b c hA hB hC ha hd, if_neg hn1,
      if_neg hn2]

/-- Claim C6, witness: at (y, y0, y1, y2) = (10, 22, 8, 8) — a row of the
outer shield's top curve — a = 14 is a genuine quadratic, the discriminant
is 112, the "+" root (28 + sqrt 112)/28 exceeds 1, and the solver returns
the "-" root (28 - sqrt 112)/28, which lies in [0,1]. -/
theorem solve_quad_t_policy_witness :
    solve_quad_t_for_y 10 22 8 8 = (28 - Real.sqrt 112) / 28 := by
  have hs0 : 0 < Real.sqrt 112 := Real.sqrt_pos.mpr (by norm_num)
  have hs28 : Real.sqrt 112 ≤ 28 := by
    rw [show (28 : ℝ) = Real.sqrt 784 from by
      rw [show (784 : ℝ) = 28 ^ 2 by norm_num, Real.sqrt_sq (by norm_num)]]
    exact Real.sqrt_le_sqrt (by norm_num)
  have key := (solve_quad_t_policy 10 22 8 8 14 (-28) 12 (by norm_num)
    (by norm_num) (by norm_num)).2.2.2 (by norm_num) (by norm_num)
  have harg : (-28 : ℝ) * -28 - 4 * 14 * 12 = 112 := by norm_num
  rw [harg] at key
  have hn1 : ¬ (0 ≤ (-(-28 : ℝ) + Real.sqrt 112) / (2 * 14) ∧
      (-(-28 : ℝ) + Real.sqrt 112) / (2 * 14) ≤ 1) := by
    intro hcon
    have h2 := hcon.2
    rw [div_le_one (by norm_num)] at h2
    nlinarith
  have hm2 : 0 ≤ (-(-28 : ℝ) - Real.sqrt 112) / (2 * 14) ∧
      (-(-28 : ℝ) - Real.sqrt 112) / (2 * 14) ≤ 1 := by
    constructor
    · apply div_nonneg _ (by norm_num)
      nlinarith
    · rw [div_le_one (by norm_num)]
      nlinarith
  rw [key.2.1 hn1 hm2]
  norm_num

/-! ## Claim C10 — alpha invariant of the compositor -/

/-- Blending any layer over a base of alpha 1 yields alpha exactly 1. -/
lemma blend_alpha_one (base : RGBA) (top : RGB) (ta : ℝ) (h : base.a = 1) :
    (blend base top ta).a = 1 := by
  simp only [blend, h]
  rw [show ta + 1 * (1 - ta) = 1 by ring]
  rw [if_neg (by norm_num : ¬ (1 : ℝ) ≤ 0)]

/-- Claim C10: the color sampler returns alpha exactly 1 at every point
inside the outer shield (the background layer starts fully opaque and every
over-blend preserves full opacity) and alpha exactly 0 at every point
outside it, so fractional output alpha can only arise from supersample
averaging across the shield boundary. -/
theorem sample_icon_alpha (x y : ℝ) :
    (shield_outer x y → (sample_icon x y).a = 1) ∧
    (¬ shield_outer x y → (sample_icon x y).a = 0) := by
  constructor
  · intro h
    simp only [sample_icon, h, not_true_eq_false, if_false]
    split_ifs <;> (repeat apply blend_alpha_one) <;> rfl
  · intro h
    rw [sample_icon, if_pos h]

/-- The straight-side row y = 50 of the outer shield contains x = 50. -/
lemma shield_outer_50_50 : shield_outer 50 50 := by
  rw [shield_outer, shield_shape]
  rw [if_neg (by norm_num [outerParams])]
  constructor
  · rw [shieldXl, if_neg (by norm_num [outerParams]),
      if_pos (by norm_num [outerParams])]
    norm_num [outerParams]
  · rw [shieldXr, if_neg (by norm_num [outerParams]),
      if_pos (by norm_num [outerParams])]
    norm_num [outerParams]

/-- Claim C10, witness: at the interior point (50, 50) the sampler's alpha
is exactly 1. -/
theorem sample_icon_alpha_witness : (sample_icon 50 50).a = 1 :=
  (sample_icon_alpha 50 50).1 shield_outer_50_50

/-! ## Claim C9 — determinism of the rasterizer -/

/-- Claim C9: the rasterizer depends on nothing but its arguments — any two
invocations with equal size and equal supersampling factor produce
byte-identical output buffers. In this embedding `render_icon` is exhibited
as a pure function of (size, supersample), so determinism is congruence in
those arguments. -/
theorem render_icon_deterministic (size₁ size₂ ss₁ ss₂ : ℕ)
    (hsize : size₁ = size₂) (hss : ss₁ = ss₂) :
    render_icon size₁ ss₁ = render_icon size₂ ss₂ := by
  rw [hsize, hss]

/-- Claim C9, witness: two renders at size 16, supersampling 3, agree. -/
theorem render_icon_deterministic_witness :
    render_icon 16 3 = render_icon 16 3 :=
  render_icon_deterministic 16 16 3 3 rfl rfl

/-! ## Claim C7 — rasterizer pixel formula -/

/-- A componentwise-accumulating fold over `List.range` is the componentwise
`Finset.range` sum. -/
lemma foldl_rgba_sum4 (gr gg gb ga : ℕ → ℝ) : ∀ (n : ℕ) (acc : RGBA),
    (List.range n).foldl
        (fun a k => ⟨a.r + gr k, a.g + gg k, a.b + gb k, a.a + ga k⟩) acc =
      ⟨acc.r + ∑ k in Finset.range n, gr k,
       acc.g + ∑ k in Finset.range n, gg k,
       acc.b + ∑ k in Finset.range n, gb k,
       acc.a + ∑ k in Finset.range n, ga k⟩ := by
  intro n
  induction n with
  | zero => intro acc; simp
  | succ m ih =>
    intro acc
    rw [List.range_succ, List.foldl_append, ih]
    simp only [List.foldl_cons, List.foldl_nil, Finset.sum_range_succ,
      RGBA.mk.injEq]
    refine ⟨by ring, by ring, by ring, by ring⟩

/-- The per-pixel accumulator is the double sum of the sampler over the
sub-sample grid, at the spec's design coordinates. -/
lemma subsample_sum_eval (size ss i j : ℕ) :
    subsample_sum size ss i j =
      ⟨∑ sy in Finset.range ss, ∑ sx in Finset.range ss,
          (sample_icon (design_coord size ss i sx) (design_coord size ss j sy)).r,
       ∑ sy in Finset.range ss, ∑ sx in Finset.range ss,
          (sample_icon (design_coord size ss i sx) (design_coord size ss j sy)).g,
       ∑ sy in Finset.range ss, ∑ sx in Finset.range ss,
          (sample_icon (design_coord size ss i sx) (design_coord size ss j sy)).b,
       ∑ sy in Finset.range ss, ∑ sx in Finset.range ss,
          (sample_icon (design_coord size ss i sx) (design_coord size ss j sy)).a⟩ := by
  have hcoord : ∀ (a b : ℕ),
      ((a : ℝ) + ((b : ℝ) + 0.5) / (ss : ℝ)) * 100 / (size : ℝ) =
        design_coord size ss a b := fun a b => by
    rw [design_coord, mul_div_assoc]
  simp only [subsample_sum, foldl_rgba_sum4, zero_add, hcoord]

/-- Truncating after adding one half is rounding to nearest, on nonnegative
values. -/
lemma py_trunc_round (v : ℝ) (h : 0 ≤ v) : py_trunc (v + 0.5) = round v := by
  rw [py_trunc, if_neg (by push_neg; linarith), round_eq]
  norm_num

/-- The byte conversion of the source (truncate clamped value plus one
half) agrees with the spec's round-after-clamp. -/
lemma py_round_byte (v : ℝ) :
    (py_trunc (clamp v 0 255 + 0.5)).toNat = (round (clamp v 0 255)).toNat := by
  rw [py_trunc_round _ (le_clamp v 0 255 (by norm_num))]

/-- The four stored bytes of a pixel match the spec's averaged formula. -/
lemma pixel_bytes_eq_spec (size ss i j : ℕ) :
    pixel_bytes size ss i j = pixel_spec size ss i j := by
  have harg : ∀ A : ℝ, A * (1 / ((ss : ℝ) * (ss : ℝ))) = A / ((ss : ℝ)) ^ 2 :=
    fun A => by ring
  simp only [pixel_bytes, subsample_sum_eval, pixel_spec, harg, py_round_byte]

/-- Claim C7: for every size ≥ 1 and supersampling factor ≥ 1, each output
pixel (i, j) equals the average of the compositor over the S x S sub-samples
at design coordinates (i + (sx+0.5)/S) * 100/size and (j + (sy+0.5)/S) *
100/size — channels divided by S^2, alpha scaled by 255, and every channel
clamped to [0,255] then rounded to the nearest integer. -/
theorem render_icon_spec_eq (size ss : ℕ) (_hsize : 1 ≤ size) (_hss : 1 ≤ ss) :
    render_icon size ss = render_spec size ss := by
  simp only [render_icon, render_spec, pixel_bytes_eq_spec]

/-- Claim C7, witness: the pixel formula theorem applied at size 1 with
supersampling factor 1. -/
theorem render_icon_spec_eq_witness : render_icon 1 1 = render_spec 1 1 :=
  render_icon_spec_eq 1 1 (by decide) (by decide)

/-! ## Square-root estimation helpers -/

/-- Upper bound a square root by squaring. -/
lemma sqrt_le_of (a b : ℝ) (hb : 0 ≤ b) (h : a ≤ b * b) : Real.sqrt a ≤ b := by
  calc Real.sqrt a ≤ Real.sqrt (b * b) := Real.sqrt_le_sqrt h
  _ = b := Real.sqrt_mul_self hb

/-- Lower bound a square root by squaring. -/
lemma le_sqrt_of (a b : ℝ) (hb : 0 ≤ b) (h : b * b ≤ a) : b ≤ Real.sqrt a := by
  calc b = Real.sqrt (b * b) := (Real.sqrt_mul_self hb).symm
  _ ≤ Real.sqrt a := Real.sqrt_le_sqrt h

/-- Strict lower bound for a square root by squaring. -/
lemma lt_sqrt_of (a b : ℝ) (hb : 0 ≤ b) (h : b * b < a) : b < Real.sqrt a := by
  have ha : 0 ≤ a := le_trans (mul_self_nonneg b) (le_of_lt h)
  nlinarith [Real.mul_self_sqrt ha, Real.sqrt_nonneg a]

/-! ## Shield boundary analysis -/

/-- Membership in a shield template is the y-band gate plus the boundary
interval at that height. -/
lemma shield_shape_iff (x y : ℝ) (p : ShieldParams) :
    shield_shape x y p ↔
      p.top_y ≤ y ∧ y ≤ p.bottom_y ∧ shieldXl p y ≤ x ∧ x ≤ shieldXr p y := by
  rw [shield_shape]
  by_cases h : y < p.top_y ∨ y > p.bottom_y
  · rw [if_pos h]
    constructor
    · exact False.elim
    · rintro ⟨h1, h2, -⟩
      rcases h with h | h
      · exact absurd h1 (not_le.mpr h)
      · exact absurd h2 (not_le.mpr h)
  · rw [if_neg h]
    push_neg at h
    constructor
    · exact fun hx => ⟨h.1, h.2, hx.1, hx.2⟩
    · exact fun hx => ⟨hx.2.2.1, hx.2.2.2⟩

/-- The outer shield is left-right symmetric: the right boundary mirrors the
left one about x = 50. -/
lemma outerXr_mirror (y : ℝ) :
    shieldXr outerParams y = 100 - shieldXl outerParams y := by
  simp only [shieldXr, shieldXl, outerParams, quad_x_at_y]
  split_ifs <;> ring

/-- The inner shield is left-right symmetric. -/
lemma innerXr_mirror (y : ℝ) :
    shieldXr innerParams y = 100 - shieldXl innerParams y := by
  simp only [shieldXr, shieldXl, innerParams, quad_x_at_y]
  split_ifs <;> ring

/-- The core shield is left-right symmetric. -/
lemma coreXr_mirror (y : ℝ) :
    shieldXr coreParams y = 100 - shieldXl coreParams y := by
  simp only [shieldXr, shieldXl, coreParams, quad_x_at_y]
  split_ifs <;> ring

/-- Outer shield, top curve (8 < y < 22): the left boundary in closed
form. -/
lemma outerXl_top_eval (y : ℝ) (h1 : 8 < y) (h2 : y < 22) :
    shieldXl outerParams y =
      14 + 14 * ((28 - Real.sqrt (56 * y - 448)) / 28) ^ 2 := by
  have harg : (-28 : ℝ) * -28 - 4 * 14 * (22 - y) = 56 * y - 448 := by ring
  have hspos : 0 < Real.sqrt ((-28 : ℝ) * -28 - 4 * 14 * (22 - y)) :=
    Real.sqrt_pos.mpr (by nlinarith)
  have hs28 : Real.sqrt (56 * y - 448) ≤ 28 :=
    sqrt_le_of _ _ (by norm_num) (by nlinarith)
  have ht : solve_quad_t_for_y y 22 8 8 = (28 - Real.sqrt (56 * y - 448)) / 28 := by
    apply solve_quad_root2 y 22 8 8 14 (-28) (22 - y) _
      (by norm_num) (by norm_num) (by norm_num) (by norm_num) (by nlinarith)
    · rintro ⟨-, hle⟩
      rw [div_le_one (by norm_num)] at hle
      linarith
    · rw [harg]
      norm_num
    · exact div_nonneg (by linarith) (by norm_num)
    · rw [div_le_one (by norm_num)]
      have := Real.sqrt_nonneg (56 * y - 448)
      linarith
  simp only [shieldXl, outerParams, quad_x_at_y]
  rw [if_pos h2, ht]
  ring

/-- Outer shield, straight side (22 ≤ y ≤ 60): the left boundary is 14. -/
lemma outerXl_straight (y : ℝ) (h1 : 22 ≤ y) (h2 : y ≤ 60) :
    shieldXl outerParams y = 14 := by
  simp only [shieldXl, outerParams]
  rw [if_neg (not_lt.mpr h1), if_pos h2]

/-- Outer shield, lower curve (60 < y ≤ 76): the left boundary in closed
form. -/
lemma outerXl_low_eval (y : ℝ) (h1 : 60 < y) (h2 : y ≤ 76) :
    shieldXl outerParams y =
      14 + 10 * ((18 - Real.sqrt (804 - 8 * y)) / 4) ^ 2 := by
  have harg : (18 : ℝ) * 18 - 4 * -2 * (60 - y) = 804 - 8 * y := by ring
  have hs18 : Real.sqrt (804 - 8 * y) ≤ 18 :=
    sqrt_le_of _ _ (by norm_num) (by nlinarith)
  have hs14 : 14 ≤ Real.sqrt (804 - 8 * y) :=
    le_sqrt_of _ _ (by norm_num) (by nlinarith)
  have ht : solve_quad_t_for_y y 60 69 76 =
      (18 - Real.sqrt (804 - 8 * y)) / 4 := by
    apply solve_quad_root1 y 60 69 76 (-2) 18 (60 - y) _
      (by norm_num) (by norm_num) (by norm_num) (by norm_num) (by nlinarith)
    · rw [harg]
      ring
    · rw [le_div_iff₀ (by norm_num)]
      linarith
    · rw [div_le_one (by norm_num)]
      linarith
  simp only [shieldXl, outerParams, quad_x_at_y]
  rw [if_neg (by push_neg; linarith), if_neg (by push_neg; linarith),
    if_pos h2, ht]
  ring

/-- Outer shield, deep curve (76 < y ≤ 90): the left boundary in closed
form. -/
lemma outerXl_deep_eval (y : ℝ) (h1 : 76 < y) (h2 : y ≤ 90) :
    shieldXl outerParams y =
      24 + 18 * ((16 - Real.sqrt (864 - 8 * y)) / 4) +
        2 * ((16 - Real.sqrt (864 - 8 * y)) / 4) ^ 2 := by
  have harg : (16 : ℝ) * 16 - 4 * -2 * (76 - y) = 864 - 8 * y := by ring
  have hs16 : Real.sqrt (864 - 8 * y) ≤ 16 :=
    sqrt_le_of _ _ (by norm_num) (by nlinarith)
  have hs12 : 12 ≤ Real.sqrt (864 - 8 * y) :=
    le_sqrt_of _ _ (by norm_num) (by nlinarith)
  have ht : solve_quad_t_for_y y 76 84 90 =
      (16 - Real.sqrt (864 - 8 * y)) / 4 := by
    apply solve_quad_root1 y 76 84 90 (-2) 16 (76 - y) _
      (by norm_num) (by norm_num) (by norm_num) (by norm_num) (by nlinarith)
    · rw [harg]
      ring
    · rw [le_div_iff₀ (by norm_num)]
      linarith
    · rw [div_le_one (by norm_num)]
      linarith
  simp only [shieldXl, outerParams, quad_x_at_y]
  rw [if_neg (by push_neg; linarith), if_neg (by push_neg; linarith),
    if_neg (by push_neg; linarith), ht]
  ring

/-- Inner shield: above the deep curve the left boundary is at least 20,
in every branch (the top and low curves only push the boundary rightward
from the side x = 20). -/
lemma innerXl_ge20 (y : ℝ) (h : y ≤ 70) : 20 ≤ shieldXl innerParams y := by
  simp only [shieldXl, innerParams, quad_x_at_y]
  split_ifs with ha hb
  · nlinarith [sq_nonneg (solve_quad_t_for_y y 26 14 14)]
  · norm_num
  · nlinarith [sq_nonneg (solve_quad_t_for_y y 56 63 70)]

/-- Inner shield, deep curve (70 < y): the left boundary is at least 29. -/
lemma innerXl_deep_ge (y : ℝ) (h : 70 < y) : 29 ≤ shieldXl innerParams y := by
  have ht : solve_quad_t_for_y y 70 77 84 = clamp (-(70 - y) / 14) 0 1 :=
    solve_quad_linear y 70 77 84 0 14 (70 - y) (by norm_num) (by norm_num)
      rfl (by norm_num) (by norm_num)
  simp only [shieldXl, innerParams, quad_x_at_y]
  rw [if_neg (by push_neg; linarith), if_neg (by push_neg; linarith),
    if_neg (by push_neg; linarith), ht]
  have ht0 : 0 ≤ clamp (-(70 - y) / 14) 0 1 := le_clamp _ _ _ (by norm_num)
  have ht1 : clamp (-(70 - y) / 14) 0 1 ≤ 1 := clamp_le _ _ _ (by norm_num)
  nlinarith

/-- Inner shield, top curve (14 < y < 26): the left boundary in closed
form. -/
lemma innerXl_top_eval (y : ℝ) (h1 : 14 < y) (h2 : y < 26) :
    shieldXl innerParams y =
      20 + 11 * ((24 - Real.sqrt (48 * y - 672)) / 24) ^ 2 := by
  have harg : (-24 : ℝ) * -24 - 4 * 12 * (26 - y) = 48 * y - 672 := by ring
  have hspos : 0 < Real.sqrt ((-24 : ℝ) * -24 - 4 * 12 * (26 - y)) :=
    Real.sqrt_pos.mpr (by nlinarith)
  have hs24 : Real.sqrt (48 * y - 672) ≤ 24 :=
    sqrt_le_of _ _ (by norm_num) (by nlinarith)
  have ht : solve_quad_t_for_y y 26 14 14 =
      (24 - Real.sqrt (48 * y - 672)) / 24 := by
    apply solve_quad_root2 y 26 14 14 12 (-24) (26 - y) _
      (by norm_num) (by norm_num) (by norm_num) (by norm_num) (by nlinarith)
    · rintro ⟨-, hle⟩
      rw [div_le_one (by norm_num)] at hle
      linarith
    · rw [harg]
      norm_num
    · exact div_nonneg (by linarith) (by norm_num)
    · rw [div_le_one (by norm_num)]
      have := Real.sqrt_nonneg (48 * y - 672)
      linarith
  simp only [shieldXl, innerParams, quad_x_at_y]
  rw [if_pos h2, ht]
  ring

/-- Inner shield, lower curve (56 < y ≤ 70): the left boundary in closed
form (the y-quadratic degenerates to the linear fallback). -/
lemma innerXl_low_eval (y : ℝ) (h1 : 56 < y) (h2 : y ≤ 70) :
    shieldXl innerParams y = 20 + 9 * ((y - 56) / 14) ^ 2 := by
  have ht : solve_quad_t_for_y y 56 63 70 = (y - 56) / 14 := by
    rw [solve_quad_linear y 56 63 70 0 14 (56 - y) (by norm_num) (by norm_num)
      rfl (by norm_num) (by norm_num)]
    rw [show -(56 - y) / 14 = (y - 56) / 14 by ring]
    exact clamp_eq_of_mem _ _ _ (by linarith [div_nonneg (by linarith : (0:ℝ) ≤ y - 56) (by norm_num : (0:ℝ) ≤ 14)])
      (by rw [div_le_one (by norm_num)]; linarith)
  simp only [shieldXl, innerParams, quad_x_at_y]
  rw [if_neg (by push_neg; linarith), if_neg (by push_neg; linarith),
    if_pos h2, ht]
  ring

/-- Inner shield, deep curve (70 < y ≤ 84): the left boundary in closed
form (the y-quadratic degenerates to the linear fallback). -/
lemma innerXl_deep_eval (y : ℝ) (h1 : 70 < y) (h2 : y ≤ 84) :
    shieldXl innerParams y =
      29 + 14 * ((y - 70) / 14) + 0.5 * ((y - 70) / 14) ^ 2 := by
  have ht : solve_quad_t_for_y y 70 77 84 = (y - 70) / 14 := by
    rw [solve_quad_linear y 70 77 84 0 14 (70 - y) (by norm_num) (by norm_num)
      rfl (by norm_num) (by norm_num)]
    rw [show -(70 - y) / 14 = (y - 70) / 14 by ring]
    exact clamp_eq_of_mem _ _ _ (by linarith [div_nonneg (by linarith : (0:ℝ) ≤ y - 70) (by norm_num : (0:ℝ) ≤ 14)])
      (by rw [div_le_one (by norm_num)]; linarith)
  simp only [shieldXl, innerParams, quad_x_at_y]
  rw [if_neg (by push_neg; linarith), if_neg (by push_neg; linarith),
    if_neg (by push_neg; linarith), ht]
  ring

/-- Core shield: above the deep curve the left boundary is at least 25, in
every branch. -/
lemma coreXl_ge25 (y : ℝ) (h : y ≤ 64) : 25 ≤ shieldXl coreParams y := by
  simp only [shieldXl, coreParams, quad_x_at_y]
  split_ifs with ha hb
  · nlinarith [sq_nonneg (solve_quad_t_for_y y 29 19 19)]
  · norm_num
  · nlinarith [sq_nonneg (solve_quad_t_for_y y 52 58 64)]

/-- Core shield, deep curve (64 < y ≤ 78): the left boundary in closed
form. -/
lemma coreXl_deep_eval (y : ℝ) (h1 : 64 < y) (h2 : y ≤ 78) :
    shieldXl coreParams y =
      33 + 11 * ((-12 + Real.sqrt (8 * y - 368)) / 4) -
        0.8 * ((-12 + Real.sqrt (8 * y - 368)) / 4) ^ 2 := by
  have harg : (12 : ℝ) * 12 - 4 * 2 * (64 - y) = 8 * y - 368 := by ring
  have hs12 : 12 ≤ Real.sqrt (8 * y - 368) :=
    le_sqrt_of _ _ (by norm_num) (by nlinarith)
  have hs16 : Real.sqrt (8 * y - 368) ≤ 16 :=
    sqrt_le_of _ _ (by norm_num) (by nlinarith)
  have ht : solve_quad_t_for_y y 64 70 78 =
      (-12 + Real.sqrt (8 * y - 368)) / 4 := by
    apply solve_quad_root1 y 64 70 78 2 12 (64 - y) _
      (by norm_num) (by norm_num) (by norm_num) (by norm_num) (by nlinarith)
    · rw [harg]
      ring
    · rw [le_div_iff₀ (by norm_num)]
      linarith
    · rw [div_le_one (by norm_num)]
      linarith
  simp only [shieldXl, coreParams, quad_x_at_y]
  rw [if_neg (by push_neg; linarith), if_neg (by push_neg; linarith),
    if_neg (by push_neg; linarith), ht]
  ring

/-- Inner shield, straight side (26 ≤ y ≤ 56): the left boundary is 20. -/
lemma innerXl_straight (y : ℝ) (h1 : 26 ≤ y) (h2 : y ≤ 56) :
    shieldXl innerParams y = 20 := by
  simp only [shieldXl, innerParams]
  rw [if_neg (not_lt.mpr h1), if_pos h2]

/-- On the inner shield's y-band [14, 84], the outer shield's left boundary
lies at or left of the inner shield's left boundary. -/
lemma outer_le_inner_xl (y : ℝ) (h1 : 14 ≤ y) (h2 : y ≤ 84) :
    shieldXl outerParams y ≤ shieldXl innerParams y := by
  rcases lt_or_le y 22 with hy | hy
  · rw [outerXl_top_eval y (by linarith) hy]
    have hi := innerXl_ge20 y (by linarith)
    set s := Real.sqrt (56 * y - 448) with hs
    have hs0 : 0 ≤ s := Real.sqrt_nonneg _
    have hsl : 18.3 ≤ s := le_sqrt_of _ _ (by norm_num) (by nlinarith)
    have hsu : s ≤ 28 := sqrt_le_of _ _ (by norm_num) (by nlinarith)
    nlinarith [hi, mul_nonneg (by linarith : (0:ℝ) ≤ s - 18.3)
      (by linarith : (0:ℝ) ≤ 28 - s)]
  · rcases le_or_lt y 60 with hy2 | hy2
    · rw [outerXl_straight y hy hy2]
      exact le_trans (by norm_num) (innerXl_ge20 y (by linarith))
    · rcases le_or_lt y 70 with hy3 | hy3
      · rw [outerXl_low_eval y hy2 (by linarith)]
        have hi := innerXl_ge20 y hy3
        set s := Real.sqrt (804 - 8 * y) with hs
        have hs0 : 0 ≤ s := Real.sqrt_nonneg _
        have hsl : 15.6 ≤ s := le_sqrt_of _ _ (by norm_num) (by nlinarith)
        have hsu : s ≤ 18 := sqrt_le_of _ _ (by norm_num) (by nlinarith)
        nlinarith [hi, mul_nonneg (by linarith : (0:ℝ) ≤ s - 15.6)
          (by linarith : (0:ℝ) ≤ 18 - s)]
      · rcases le_or_lt y 76 with hy4 | hy4
        · rw [outerXl_low_eval y hy2 hy4]
          have hi := innerXl_deep_ge y hy3
          set s := Real.sqrt (804 - 8 * y) with hs
          have hs0 : 0 ≤ s := Real.sqrt_nonneg _
          have hsl : 14 ≤ s := le_sqrt_of _ _ (by norm_num) (by nlinarith)
          have hsu : s ≤ 18 := sqrt_le_of _ _ (by norm_num) (by nlinarith)
          nlinarith [hi, mul_nonneg (by linarith : (0:ℝ) ≤ s - 14)
            (by linarith : (0:ℝ) ≤ 18 - s)]
        · rw [outerXl_deep_eval y hy4 (by linarith),
            innerXl_deep_eval y hy3 h2]
          set s := Real.sqrt (864 - 8 * y) with hs
          have hs0 : 0 ≤ s := Real.sqrt_nonneg _
          have hsq : s * s = 864 - 8 * y := Real.mul_self_sqrt (by linarith)
          have hsl : 13.85 ≤ s := le_sqrt_of _ _ (by norm_num) (by nlinarith)
          have hsu : s ≤ 16 := sqrt_le_of _ _ (by norm_num) (by nlinarith)
          nlinarith [hsq, mul_nonneg (by linarith : (0:ℝ) ≤ s - 13.85)
            (by linarith : (0:ℝ) ≤ 16 - s), sq_nonneg (304 - s * s)]

/-- On the core shield's y-band [19, 78], the inner shield's left boundary
lies at or left of the core shield's left boundary. -/
lemma inner_le_core_xl (y : ℝ) (h1 : 19 ≤ y) (h2 : y ≤ 78) :
    shieldXl innerParams y ≤ shieldXl coreParams y := by
  rcases lt_or_le y 26 with hy | hy
  · rw [innerXl_top_eval y (by linarith) hy]
    have hc := coreXl_ge25 y (by linarith)
    set s := Real.sqrt (48 * y - 672) with hs
    have hs0 : 0 ≤ s := Real.sqrt_nonneg _
    have hsl : 15.49 ≤ s := le_sqrt_of _ _ (by norm_num) (by nlinarith)
    have hsu : s ≤ 24 := sqrt_le_of _ _ (by norm_num) (by nlinarith)
    nlinarith [hc, mul_nonneg (by linarith : (0:ℝ) ≤ s - 15.49)
      (by linarith : (0:ℝ) ≤ 24 - s)]
  · rcases le_or_lt y 56 with hy2 | hy2
    · rw [innerXl_straight y hy hy2]
      exact le_trans (by norm_num) (coreXl_ge25 y (by linarith))
    · rcases le_or_lt y 64 with hy3 | hy3
      · rw [innerXl_low_eval y hy2 (by linarith)]
        have hc := coreXl_ge25 y hy3
        nlinarith [hc, mul_nonneg (by linarith : (0:ℝ) ≤ y - 56)
          (by linarith : (0:ℝ) ≤ 64 - y)]
      · rcases le_or_lt y 70 with hy4 | hy4
        · rw [innerXl_low_eval y hy2 hy4, coreXl_deep_eval y hy3 (by linarith)]
          set s := Real.sqrt (8 * y - 368) with hs
          have hs0 : 0 ≤ s := Real.sqrt_nonneg _
          have hsq : s * s = 8 * y - 368 := Real.mul_self_sqrt (by linarith)
          have hsl : 12 ≤ s := le_sqrt_of _ _ (by norm_num) (by nlinarith)
          have hsu : s ≤ 13.9 := sqrt_le_of _ _ (by norm_num) (by nlinarith)
          have h192 : s * s ≤ 192 := by rw [hsq]; linarith
          have h144 : 144 ≤ s * s := by nlinarith
          nlinarith [hsq, h192, h144,
            mul_nonneg (by linarith : (0:ℝ) ≤ s * s - 80)
              (by linarith : (0:ℝ) ≤ 192 - s * s),
            mul_nonneg (by linarith : (0:ℝ) ≤ s - 12)
              (by linarith : (0:ℝ) ≤ 13.9 - s)]
        · rw [innerXl_deep_eval y hy4 (by linarith), coreXl_deep_eval y hy3 h2]
          set s := Real.sqrt (8 * y - 368) with hs
          have hs0 : 0 ≤ s := Real.sqrt_nonneg _
          have hsq : s * s = 8 * y - 368 := Real.mul_self_sqrt (by linarith)
          have hsl : 13.85 ≤ s := le_sqrt_of _ _ (by norm_num) (by nlinarith)
          have hsu : s ≤ 16 := sqrt_le_of _ _ (by norm_num) (by nlinarith)
          nlinarith [hsq, mul_nonneg (by linarith : (0:ℝ) ≤ s - 13.85)
              (by linarith : (0:ℝ) ≤ 16 - s),
            mul_nonneg (by nlinarith : (0:ℝ) ≤ 256 - s * s)
              (by nlinarith : (0:ℝ) ≤ s * s - 128),
            sq_nonneg (s * s - 192)]

/-- Every inner-shield point lies in the outer shield. -/
lemma inner_sub_outer (x y : ℝ) (h : shield_inner x y) : shield_outer x y := by
  rw [shield_inner, shield_shape_iff] at h
  obtain ⟨hy1, hy2, hxl, hxr⟩ := h
  have hy1' : (14 : ℝ) ≤ y := by simpa [innerParams] using hy1
  have hy2' : y ≤ 84 := by simpa [innerParams] using hy2
  rw [shield_outer, shield_shape_iff]
  refine ⟨?_, ?_, le_trans (outer_le_inner_xl y hy1' hy2') hxl, ?_⟩
  · simp only [outerParams]
    linarith
  · simp only [outerParams]
    linarith
  · rw [outerXr_mirror]
    rw [innerXr_mirror] at hxr
    have hx := outer_le_inner_xl y hy1' hy2'
    linarith

/-- Every core-shield point lies in the inner shield. -/
lemma core_sub_inner (x y : ℝ) (h : shield_core x y) : shield_inner x y := by
  rw [shield_core, shield_shape_iff] at h
  obtain ⟨hy1, hy2, hxl, hxr⟩ := h
  have hy1' : (19 : ℝ) ≤ y := by simpa [coreParams] using hy1
  have hy2' : y ≤ 78 := by simpa [coreParams] using hy2
  rw [shield_inner, shield_shape_iff]
  refine ⟨?_, ?_, le_trans (inner_le_core_xl y hy1' hy2') hxl, ?_⟩
  · simp only [innerParams]
    linarith
  · simp only [innerParams]
    linarith
  · rw [innerXr_mirror]
    rw [coreXr_mirror] at hxr
    have hx := inner_le_core_xl y hy1' hy2'
    linarith

/-! ## Claim C3 — shield nesting invariant -/

/-- Claim C3: for every design-space point (x, y), membership in the core
shield implies membership in the inner shield, and membership in the inner
shield implies membership in the outer shield. -/
theorem shield_nesting (x y : ℝ) :
    (shield_core x y → shield_inner x y) ∧
      (shield_inner x y → shield_outer x y) :=
  ⟨core_sub_inner x y, inner_sub_outer x y⟩

/-- The straight-side row y = 50 of the core shield contains x = 50. -/
lemma shield_core_50_50 : shield_core 50 50 := by
  rw [shield_core, shield_shape]
  rw [if_neg (by norm_num [coreParams])]
  constructor
  · rw [shieldXl, if_neg (by norm_num [coreParams]),
      if_pos (by norm_num [coreParams])]
    norm_num [coreParams]
  · rw [shieldXr, if_neg (by norm_num [coreParams]),
      if_pos (by norm_num [coreParams])]
    norm_num [coreParams]

/-- Claim C3, witness: the point (50, 50) lies in the core shield, hence by
the nesting theorem in the inner and outer shields as well. -/
theorem shield_nesting_witness : shield_inner 50 50 ∧ shield_outer 50 50 :=
  ⟨(shield_nesting 50 50).1 shield_core_50_50,
    (shield_nesting 50 50).2 ((shield_nesting 50 50).1 shield_core_50_50)⟩

/-! ## Claim C2 — the sample at the design point (50, 10) -/

/-- Both V segments have both endpoints at or below the line y = 30 (y
grows downward), so the distance from any point above that line is at least
the vertical gap. -/
lemma dist_ge_vertical (px py ax ay bx byy : ℝ)
    (hay : 30 ≤ ay) (hby : 30 ≤ byy) (hpy : py ≤ 30) :
    30 - py ≤ dist_to_segment px py ax ay bx byy := by
  simp only [dist_to_segment]
  split_ifs with h
  · apply le_sqrt_of _ _ (by linarith)
    nlinarith [sq_nonneg (px - ax)]
  · set t := clamp (((px - ax) * (bx - ax) + (py - ay) * (byy - ay)) /
      ((bx - ax) * (bx - ax) + (byy - ay) * (byy - ay))) 0 1 with ht
    have ht0 : 0 ≤ t := le_clamp _ _ _ (by norm_num)
    have ht1 : t ≤ 1 := clamp_le _ _ _ (by norm_num)
    apply le_sqrt_of _ _ (by linarith)
    have hcy : 30 ≤ ay + t * (byy - ay) := by
      nlinarith [mul_nonneg ht0 (by linarith : (0:ℝ) ≤ byy - 30),
        mul_nonneg (by linarith : (0:ℝ) ≤ 1 - t)
          (by linarith : (0:ℝ) ≤ ay - 30)]
    nlinarith [sq_nonneg (px - (ax + t * (bx - ax))),
      mul_nonneg (by linarith : (0:ℝ) ≤ ay + t * (byy - ay) - 30)
        (by linarith : (0:ℝ) ≤ 30 - py)]

/-- A point lying more than half a stroke width above y = 30 is outside the
V stroke of that width. -/
lemma shape_v_above (x y w : ℝ) (hw : 0 ≤ w) (h : y + w * 0.5 < 30) :
    ¬ shape_v x y w := by
  rw [shape_v]
  push_neg
  rw [lt_min_iff]
  have hpy : y ≤ 30 := by nlinarith
  constructor
  · exact lt_of_lt_of_le (by linarith)
      (dist_ge_vertical x y 34 30 50 72 (by norm_num) (by norm_num) hpy)
  · exact lt_of_lt_of_le (by linarith)
      (dist_ge_vertical x y 50 72 66 30 (by norm_num) (by norm_num) hpy)

/-- The point (50, 10) lies inside the outer shield (its top curve at
y = 10 spans x between 30 - sqrt 112 and 70 + sqrt 112). -/
lemma shield_outer_50_10 : shield_outer 50 10 := by
  rw [shield_outer, shield_shape_iff]
  have hxl := outerXl_top_eval 10 (by norm_num) (by norm_num)
  have hs0 : 0 ≤ Real.sqrt (56 * 10 - 448) := Real.sqrt_nonneg _
  have hsu : Real.sqrt (56 * 10 - 448) ≤ 28 :=
    sqrt_le_of _ _ (by norm_num) (by norm_num)
  refine ⟨?_, ?_, ?_, ?_⟩
  · simp only [outerParams]
    norm_num
  · simp only [outerParams]
    norm_num
  · rw [hxl]
    have ht2 : ((28 - Real.sqrt (56 * 10 - 448)) / 28) ^ 2 ≤ 1 := by
      have hb0 : 0 ≤ (28 - Real.sqrt (56 * 10 - 448)) / 28 :=
        div_nonneg (by linarith) (by norm_num)
      have hb1 : (28 - Real.sqrt (56 * 10 - 448)) / 28 ≤ 1 := by
        rw [div_le_one (by norm_num)]
        linarith
      nlinarith [hb0, hb1]
    linarith
  · rw [outerXr_mirror, hxl]
    have ht2 : ((28 - Real.sqrt (56 * 10 - 448)) / 28) ^ 2 ≤ 1 := by
      have hb0 : 0 ≤ (28 - Real.sqrt (56 * 10 - 448)) / 28 :=
        div_nonneg (by linarith) (by norm_num)
      have hb1 : (28 - Real.sqrt (56 * 10 - 448)) / 28 ≤ 1 := by
        rw [div_le_one (by norm_num)]
        linarith
      nlinarith [hb0, hb1]
    linarith

/-- The point (50, 10) lies above the inner shield, whose band starts at
y = 14. -/
lemma not_shield_inner_50_10 : ¬ shield_inner 50 10 := by
  rw [shield_inner, shield_shape]
  rw [if_pos (Or.inl (by norm_num [innerParams]))]
  exact not_false

/-- When a point is inside the outer shield but outside the inner shield
and away from every V layer, the sampler returns the background blended
with the outer-band accent at alpha 0.95. -/
lemma sample_icon_band (x y : ℝ) (h1 : shield_outer x y)
    (h2 : ¬ shield_inner x y) (h3 : ¬ shape_v (x - 1.5) (y - 1.6) 10.5)
    (h4 : ¬ shape_v_outline x y) (h5 : ¬ shape_v x y 10.5) :
    sample_icon x y =
      blend ⟨(background x y).r, (background x y).g, (background x y).b, 1⟩
        ⟨0, 212, 255⟩ 0.95 := by
  simp only [sample_icon, h1, h2, h3, h4, h5, not_true_eq_false,
    not_false_eq_true, if_true, if_false, ite_true, ite_false]

/-- The background color at (50, 10): gradient parameter 0.348 gives the
truncated gradient color (34, 25, 78), and glow strength 0.1593 mixes it
toward (0, 212, 255). -/
lemma background_50_10 :
    background 50 10 = ⟨28.5838, 54.7891, 106.1961⟩ := by
  rw [background]
  norm_num [mix, clamp, py_int, py_trunc]

/-- Claim C2, counterexample: the claim says the sampler returns exactly the
plain background gradient/glow color at (50, 10); in fact (50, 10) lies
above the inner shield (whose band starts at y = 14), so the outer-band
blend at alpha 0.95 fires and the sampled color differs from the plain
background. -/
theorem sample_plain_cex :
    sample_icon 50 10 ≠
      ⟨(background 50 10).r, (background 50 10).g, (background 50 10).b, 1⟩ := by
  rw [sample_icon_band 50 10 shield_outer_50_10 not_shield_inner_50_10
    (shape_v_above _ _ _ (by norm_num) (by norm_num))
    (fun hcon => shape_v_above 50 10 14.5 (by norm_num) (by norm_num) hcon.1)
    (shape_v_above _ _ _ (by norm_num) (by norm_num))]
  rw [background_50_10]
  intro hcon
  have hr := congrArg RGBA.r hcon
  norm_num [blend] at hr

/-- Claim C2 (amended): at the design point (50, 10) — inside the outer
shield but above the inner and core shields, away from the V — the sampler
returns the plain background color blended with the outer-band accent
(0, 212, 255) at alpha 0.95, not the plain background itself. -/
theorem sample_band_at_50_10 :
    sample_icon 50 10 =
      blend ⟨(background 50 10).r, (background 50 10).g, (background 50 10).b, 1⟩
        ⟨0, 212, 255⟩ 0.95 :=
  sample_icon_band 50 10 shield_outer_50_10 not_shield_inner_50_10
    (shape_v_above _ _ _ (by norm_num) (by norm_num))
    (fun hcon => shape_v_above 50 10 14.5 (by norm_num) (by norm_num) hcon.1)
    (shape_v_above _ _ _ (by norm_num) (by norm_num))

end Favicon
